import Mathlib

/-!
# Verification of the HTTP/1.1 server codec (Go source, package main)

Shallow embedding of the request parser, response encoder, status-line
table and GET route handler of the server.  Byte streams are modelled as
`List Char` (one `Char` per byte; all comparisons performed by the source
are on ASCII data), Go strings as `String`, Go `nil`-able byte slices as
`Option String`, and Go `int` as `Int`.

A Go runtime panic (index out of range, `make` with a negative length) is
modelled by an explicit `crash` outcome; a Go `error` return is modelled
by `err`/`Option` values.
-/

set_option maxRecDepth 10000

/-- `statusLines` map built by `init` (source lines 22-31), as a lookup
function: the six fixed entries, `none` for every other code. -/
def statusLines (code : Int) : Option String :=
  if code = 501 then some "HTTP/1.1 501 Not Implemented"
  else if code = 500 then some "HTTP/1.1 500 Internal Server Error"
  else if code = 404 then some "HTTP/1.1 404 Not Found"
  else if code = 400 then some "HTTP/1.1 400 Bad Request"
  else if code = 200 then some "HTTP/1.1 200 OK"
  else if code = 201 then some "HTTP/1.1 201 Created"
  else none

/-- `getStatusLine` (source lines 44-52): map lookup with a fixed default
on key error, one CRLF appended. -/
def getStatusLine (code : Int) : String :=
  match statusLines code with
  | some statusLine => statusLine ++ "\r\n"
  | none => "HTTP/1.1 500 Internal Server Error" ++ "\r\n"

/-- First occurrence of (non-empty) `sep` in a char list, as
`strings.Index` does: returns the text before the match and the text
after it, or `none` when `sep` does not occur. -/
def splitFirst (sep : List Char) : List Char → Option (List Char × List Char)
  | [] => none
  | c :: cs =>
    if sep.isPrefixOf (c :: cs) then some ([], List.drop sep.length (c :: cs))
    else
      match splitFirst sep cs with
      | some (pre, post) => some (c :: pre, post)
      | none => none

/-- `strings.SplitN(s, sep, n)` for `n > 0` and non-empty `sep`: at most
`n` pieces, the last piece holding the unsplit remainder; an input with
no separator (including the empty input) yields the one-element list. -/
def splitNList (sep : List Char) : Nat → List Char → List (List Char)
  | 0, _ => []
  | 1, s => [s]
  | n + 2, s =>
    match splitFirst sep s with
    | none => [s]
    | some (pre, post) => pre :: splitNList sep (n + 1) post

/-- `strings.SplitN` on `String`s. -/
def goSplitN (sep : String) (n : Nat) (s : String) : List String :=
  (splitNList sep.data n s.data).map (fun l => ⟨l⟩)

/-- ASCII lower-casing of one char.  `strings.ToLower` lowers Unicode
runes, but every comparison in the source is against a pure-ASCII header
name, and no non-ASCII char lowers onto those names' chars, so the ASCII
map is faithful for the equalities the source performs. -/
def asciiLowerChar (c : Char) : Char :=
  if 'A' ≤ c ∧ c ≤ 'Z' then Char.ofNat (c.toNat + 32) else c

/-- `strings.ToLower` restricted as above. -/
def asciiLower (s : String) : String := ⟨s.data.map asciiLowerChar⟩

/-- Decimal value of a non-empty all-digit char list, `none` otherwise. -/
def digitsVal (ds : List Char) : Option Nat :=
  if ds = [] then none
  else
    ds.foldl
      (fun acc c =>
        match acc with
        | none => none
        | some n =>
          if '0' ≤ c ∧ c ≤ '9' then some (n * 10 + (c.toNat - '0'.toNat))
          else none)
      (some 0)

/-- `strconv.Atoi`: optional sign, decimal digits, 64-bit range check;
`none` models a non-nil error. -/
def goAtoi (s : String) : Option Int :=
  match s.data with
  | '+' :: ds =>
    (digitsVal ds).bind fun n =>
      if n ≤ 9223372036854775807 then some (n : Int) else none
  | '-' :: ds =>
    (digitsVal ds).bind fun n =>
      if n ≤ 9223372036854775808 then some (-(n : Int)) else none
  | _ =>
    (digitsVal s.data).bind fun n =>
      if n ≤ 9223372036854775807 then some (n : Int) else none

/-- Content before the first `'\n'` and the bytes after it, when a
`'\n'` is present. -/
def splitAtNewline : List Char → Option (List Char × List Char)
  | [] => none
  | c :: cs =>
    if c = '\n' then some ([], cs)
    else
      match splitAtNewline cs with
      | some (pre, post) => some (c :: pre, post)
      | none => none

/-- `bufio.Reader.ReadLine` strips one `'\r'` sitting directly before
the terminating `'\n'`. -/
def dropTrailingCR (l : List Char) : List Char :=
  if l.getLast? = some '\r' then l.dropLast else l

/-- `readLine` (source lines 380-392) over the unread rest of the
stream: `none` is the EOF error (no byte left); otherwise the logical
line (terminator excluded, one `'\r'` before a `'\n'` stripped; a final
unterminated chunk is returned as a complete line, unstripped) plus the
unread rest.  The `isPrefix` loop in the source only reassembles lines
longer than the internal buffer and does not change this function. -/
def readLine (input : List Char) : Option (String × List Char) :=
  match splitAtNewline input with
  | some (pre, post) => some (⟨dropTrailingCR pre⟩, post)
  | none => if input = [] then none else some (⟨input⟩, [])

/-- `httpRequest` (source lines 394-406).  `Body` is `none` while the Go
slice is `nil`; all other fields start at their Go zero values. -/
structure httpRequest where
  Line : String := ""
  Body : Option String := none
  Method : String := ""
  Target : String := ""
  HTTPVersion : String := ""
  Host : String := ""
  UserAgent : String := ""
  Accept : String := ""
  ContentType : String := ""
  ContentLength : Int := 0
  AcceptEncoding : String := ""
deriving DecidableEq, Repr

/-- The `content-length` case of the header switch (source lines
338-347): an `Atoi` error yields the `-1` sentinel, any parsed value
(negative ones included) is stored as parsed. -/
def contentLengthValue (v : String) : Int :=
  match goAtoi v with
  | none => -1
  | some n => n

/-- Outcome of the header loop. -/
inductive HeaderOutcome where
  | done (req : httpRequest) (rest : List Char)
  | err
  | crash
deriving DecidableEq, Repr

/-- Header loop of `parseHTTPRequest` (source lines 317-354), with a
fuel argument for structural recursion; every iteration consumes at
least one byte of the stream, so fuel `input.length + 1` (what
`parseHTTPRequest` passes) never runs out (`parseHeadersFuel_congr`
below makes this exact).  A recognized header name whose line has no
`": "` separator makes the source index `parts[1]` out of range: that is
the `crash` outcome. -/
def parseHeadersFuel : Nat → List Char → httpRequest → HeaderOutcome
  | 0, _, _ => .err
  | fuel + 1, input, req =>
    match readLine input with
    | none => .err
    | some (line, rest) =>
      if line = "" then .done req rest
      else
        let parts := goSplitN ": " 2 line
        let name := asciiLower (parts.getD 0 "")
        if name = "host" then
          if parts.length < 2 then .crash
          else parseHeadersFuel fuel rest { req with Host := parts.getD 1 "" }
        else if name = "user-agent" then
          if parts.length < 2 then .crash
          else parseHeadersFuel fuel rest { req with UserAgent := parts.getD 1 "" }
        else if name = "accept" then
          if parts.length < 2 then .crash
          else parseHeadersFuel fuel rest { req with Accept := parts.getD 1 "" }
        else if name = "content-type" then
          if parts.length < 2 then .crash
          else parseHeadersFuel fuel rest { req with ContentType := parts.getD 1 "" }
        else if name = "content-length" then
          if parts.length < 2 then .crash
          else
            parseHeadersFuel fuel rest
              { req with ContentLength := contentLengthValue (parts.getD 1 "") }
        else if name = "accept-encoding" then
          if parts.length < 2 then .crash
          else parseHeadersFuel fuel rest { req with AcceptEncoding := parts.getD 1 "" }
        else parseHeadersFuel fuel rest req

/-- Outcome of the body-framing stage. -/
inductive BodyOutcome where
  | ok (body : Option String)
  | err
  | crash
deriving DecidableEq, Repr

/-- Body framing of `parseHTTPRequest` (source lines 356-375).  When
`ContentLength ≠ -1` the source allocates `make([]byte, ContentLength)`
(a negative length panics) and `io.ReadFull`s it (fewer available bytes
than requested is an error); otherwise one best-effort line is read and
EOF there is not an error (the body stays `nil`). -/
def readBody (cl : Int) (rest : List Char) : BodyOutcome :=
  if cl ≠ -1 then
    if cl < 0 then .crash
    else if (rest.length : Int) < cl then .err
    else .ok (some ⟨rest.take cl.toNat⟩)
  else
    match readLine rest with
    | some (line, _) => .ok (some line)
    | none => .ok none

/-- Outcome of `parseHTTPRequest`. -/
inductive ParseOutcome where
  | ok (req : httpRequest)
  | err
  | crash
deriving DecidableEq, Repr

/-- `parseHTTPRequest` (source lines 296-378): request line split into
exactly three tokens, header loop, then body framing. -/
def parseHTTPRequest (message : List Char) : ParseOutcome :=
  match readLine message with
  | none => .err
  | some (line, rest) =>
    let parts := goSplitN " " 3 line
    if parts.length < 3 then .err
    else
      let req0 : httpRequest :=
        { Line := line, Method := parts.getD 0 "", Target := parts.getD 1 "",
          HTTPVersion := parts.getD 2 "" }
      match parseHeadersFuel (rest.length + 1) rest req0 with
      | .crash => .crash
      | .err => .err
      | .done req1 rest1 =>
        match readBody req1.ContentLength rest1 with
        | .crash => .crash
        | .err => .err
        | .ok body => .ok { req1 with Body := body }

/-- `httpResponse` (source lines 408-414).  `Body = none` is the Go
`nil` slice; `make([]byte, 0)` is a non-nil empty slice, `some ""`. -/
structure httpResponse where
  ResponseCode : Int := 0
  ContentType : String := ""
  EncodingMethod : String := ""
  Encoded : Bool := false
  Body : Option String := none
deriving DecidableEq, Repr

/-- The one error kind `Encode` can produce (`UnsupportedEncodingError`,
source lines 416-422); the fatal default branch of the error switch in
`ByteResponse` is unreachable because no other error type exists. -/
inductive EncErr where
  | unsupported (method : String)
deriving DecidableEq, Repr

/-- `Encode` (source lines 506-526), with the Go in-place mutation made
explicit: result is the state of the receiver after the call plus the
returned error.  Nil body or empty requested method: no action.  The one
supported label `"gzip"` just sets `Encoded`; any other label clears the
method field, forces `Encoded := false` and returns the non-fatal
error. -/
def httpResponse.Encode (resp : httpResponse) : httpResponse × Option EncErr :=
  if resp.Body = none ∨ resp.EncodingMethod = "" then (resp, none)
  else if resp.EncodingMethod = "gzip" then ({ resp with Encoded := true }, none)
  else
    ({ resp with EncodingMethod := "", Encoded := false },
      some (.unsupported resp.EncodingMethod))

/-- The deep copy performed by `SafeEncode` (source lines 489-497):
fresh buffer `make([]byte, len(Body))` plus `copy`; a `nil` body becomes
a non-nil empty one. -/
def httpResponse.deepCopy (resp : httpResponse) : httpResponse :=
  { resp with Body := some (resp.Body.getD "") }

/-- `SafeEncode` (source lines 487-500): encode the deep copy, return
the new object and the error; the receiver is untouched. -/
def httpResponse.SafeEncode (resp : httpResponse) : httpResponse × Option EncErr :=
  resp.deepCopy.Encode

/-- The encode step at the top of `ByteResponse` (source lines 443-448):
the object the rest of the function serializes, plus the error. -/
def postEncode (mutate : Bool) (resp : httpResponse) : httpResponse × Option EncErr :=
  if mutate then resp.Encode else resp.SafeEncode

/-- `GetContentLength` (source lines 530-535): `len` of the body, 0 for
`nil`. -/
def httpResponse.GetContentLength (resp : httpResponse) : Nat :=
  match resp.Body with
  | none => 0
  | some b => b.length

/-- The `headers` map contents built by `ByteResponse` (source lines
461-471), listed in the source's insertion order: body-based headers
only when the (post-encode) body is non-nil. -/
def emittedHeaders (resp : httpResponse) : List (String × String) :=
  match resp.Body with
  | none => []
  | some _ =>
    (if resp.Encoded then [("Content-Encoding", resp.EncodingMethod)] else [])
      ++ (if resp.ContentType ≠ "" then [("Content-Type", resp.ContentType)] else [])
      ++ [("Content-Length", toString resp.GetContentLength)]

/-- One rendered header line, `fmt.Sprintf("%s: %s\r\n", key, value)`. -/
def headerLine (kv : String × String) : String :=
  kv.1 ++ ": " ++ kv.2 ++ "\r\n"

/-- The header-rendering loop of `ByteResponse` (source lines 473-475),
over an explicit iteration order `hs`: Go map iteration order is
randomized per `range`, so the serialization is defined for every
permutation `hs` of `emittedHeaders`. -/
def renderHeaders (hs : List (String × String)) : String :=
  hs.foldl (fun acc kv => acc ++ headerLine kv) ""

/-- What a `ByteResponse(mutate)` call leaves behind. -/
structure WireResult where
  /-- The returned wire bytes: status line, header lines, blank CRLF,
  raw body. -/
  bytes : String
  /-- The error returned alongside the bytes (always the non-fatal
  `UnsupportedEncodingError` when present). -/
  nonFatalErr : Option EncErr
  /-- Observable state of the caller's response object after the call:
  mutated by `Encode` when `mutate`, untouched when not (`SafeEncode`
  works on the copy and only the local variable is rebound). -/
  origAfter : httpResponse

/-- `ByteResponse` (source lines 443-481), parameterized by the map
iteration order `hs` (meaningful when `hs` is a permutation of
`emittedHeaders` of the post-encode object). -/
def httpResponse.ByteResponse (resp : httpResponse) (mutate : Bool)
    (hs : List (String × String)) : WireResult :=
  let enc := postEncode mutate resp
  { bytes :=
      getStatusLine enc.1.ResponseCode ++ renderHeaders hs ++ "\r\n"
        ++ (enc.1.Body.getD "")
  , nonFatalErr := enc.2
  , origAfter := if mutate then enc.1 else resp }

/-- Result of `os.Stat` on the requested path, as the source consumes
it: success, `fs.ErrNotExist`, or any other error. -/
inductive StatResult where
  | found
  | notExist
  | otherErr
deriving DecidableEq, Repr

/-- Result of `os.ReadFile`. -/
inductive ReadResult where
  | ok (content : String)
  | err
deriving DecidableEq, Repr

/-- The directory-scoped file store collaborator (`os.Stat` /
`os.ReadFile` as used by `handleGETRequest`). -/
structure FileSystem where
  stat : String → StatResult
  read : String → ReadResult

/-- Outcome of building the response object in `handleGETRequest`:
either the `httpResponse` handed to `ByteResponse(true)`, or a runtime
panic (the `echo` arm indexes `targetParts[2]` without a length
check). -/
inductive GetOutcome where
  | ok (resp : httpResponse)
  | crash
deriving DecidableEq, Repr

/-- `handleGETRequest` (source lines 201-259) up to the response object
it serializes: the `/` universal arm (source lines 120-137) builds a
bare 200 response; every other arm starts from a response carrying the
request's `Accept-Encoding` and dispatches on the first two `/`
boundaries of the target. -/
def handleGETResponse (fs : FileSystem) (dir : String) (req : httpRequest) :
    GetOutcome :=
  if req.Target = "/" then .ok { ResponseCode := 200 }
  else
    let base : httpResponse := { EncodingMethod := req.AcceptEncoding }
    let targetParts := goSplitN "/" 3 req.Target
    if targetParts.length < 2 then
      .ok { base with ResponseCode := 400, Body := some "Invalid target structure" }
    else if targetParts.getD 1 "" = "echo" then
      if targetParts.length < 3 then .crash
      else
        .ok { base with
              ResponseCode := 200, Body := some (targetParts.getD 2 ""),
              ContentType := "text/plain" }
    else if targetParts.getD 1 "" = "user-agent" then
      .ok { base with
            ResponseCode := 200, Body := some req.UserAgent,
            ContentType := "text/plain" }
    else if targetParts.getD 1 "" = "files" then
      if targetParts.length < 3 then
        .ok { base with
              ResponseCode := 400, Body := some "Invalid file target structure\n" }
      else
        match fs.stat (dir ++ targetParts.getD 2 "") with
        | .notExist => .ok { base with ResponseCode := 404 }
        | .otherErr => .ok { base with ResponseCode := 500 }
        | .found =>
          match fs.read (dir ++ targetParts.getD 2 "") with
          | .err =>
            .ok { base with
                  ResponseCode := 500,
                  Body := some "There was an error reading the requested file\n" }
          | .ok content =>
            .ok { base with
                  ResponseCode := 200, Body := some content,
                  ContentType := "application/octet-stream" }
    else .ok { base with ResponseCode := 404 }

/-! ## Helper lemmas -/

/-- The header loop of `ByteResponse` renders the concatenation of the
rendered lines, in iteration order. -/
theorem renderHeaders_eq_join (hs : List (String × String)) :
    renderHeaders hs = String.join (hs.map headerLine) :=
  (List.foldl_map headerLine (fun r s => r ++ s) hs "").symm

/-- `Encode` never touches the status code, the body or the content
type. -/
theorem Encode_fields (resp : httpResponse) :
    resp.Encode.1.ResponseCode = resp.ResponseCode ∧
    resp.Encode.1.Body = resp.Body ∧
    resp.Encode.1.ContentType = resp.ContentType := by
  unfold httpResponse.Encode
  split
  · exact ⟨rfl, rfl, rfl⟩
  · split
    · exact ⟨rfl, rfl, rfl⟩
    · exact ⟨rfl, rfl, rfl⟩

/-- The deep copy is the identity on a response whose body is already
present (non-nil). -/
theorem deepCopy_of_some (resp : httpResponse) (b : String)
    (hb : resp.Body = some b) : resp.deepCopy = resp := by
  cases resp
  unfold httpResponse.deepCopy
  simp_all

/-- A response whose `Encoded` flag is off emits no `Content-Encoding`
header. -/
theorem contentEncoding_not_mem (resp : httpResponse) (h : resp.Encoded = false) :
    "Content-Encoding" ∉ (emittedHeaders resp).map Prod.fst := by
  unfold emittedHeaders
  cases hb : resp.Body with
  | none => simp
  | some b =>
    rw [h]
    by_cases hct : resp.ContentType = "" <;> simp [hct]

/-! ## Claims -/

/-- C5: for every integer status code outside the fixed table
{200, 201, 400, 404, 500, 501}, `getStatusLine` returns the 500 status
line; in particular code 999 yields the same line as code 500. -/
theorem C5_status_line_fallback (code : Int)
    (h : code ∉ ([200, 201, 400, 404, 500, 501] : List Int)) :
    getStatusLine code = "HTTP/1.1 500 Internal Server Error\r\n" ∧
    getStatusLine 999 = getStatusLine 500 := by
  refine ⟨?_, by decide⟩
  simp only [List.mem_cons, List.not_mem_nil, or_false, not_or] at h
  obtain ⟨h200, h201, h400, h404, h500, h501⟩ := h
  unfold getStatusLine statusLines
  rw [if_neg h501, if_neg h500, if_neg h404, if_neg h400, if_neg h200, if_neg h201]
  decide

/-- Witness for C5 at the concrete code 999. -/
theorem C5_status_line_fallback_witness :
    (999 : Int) ∉ ([200, 201, 400, 404, 500, 501] : List Int) ∧
    getStatusLine 999 = "HTTP/1.1 500 Internal Server Error\r\n" :=
  ⟨by decide, (C5_status_line_fallback 999 (by decide)).1⟩

/-- C9 (code bug): the parser is not total.  On the request below, the
header line `Host` contains no `": "` separator, `strings.SplitN`
returns the one-element slice `["Host"]`, and the `case "host"` arm
indexes `parts[1]` out of range: a Go runtime panic (modelled by
`crash`), not a request or an error. -/
theorem C9_header_without_separator_crashes :
    parseHTTPRequest "GET / HTTP/1.1\r\nHost\r\n\r\n".data = .crash := by
  decide

/-- C1: a request parsed successfully with a non-negative
`ContentLength` `N` always carries a body of exactly `N` bytes, and the
body-framing stage of the parser fails with a parse error (never a
truncated body) whenever fewer than `N` bytes remain after the header
terminator. -/
theorem C1_content_length_body_framing :
    (∀ (m : List Char) (req : httpRequest),
        parseHTTPRequest m = .ok req → 0 ≤ req.ContentLength →
        ∃ b : String, req.Body = some b ∧ (b.length : Int) = req.ContentLength) ∧
    (∀ (cl : Int) (rest : List Char), 0 ≤ cl →
        (cl ≤ (rest.length : Int) →
          readBody cl rest = .ok (some ⟨rest.take cl.toNat⟩)) ∧
        ((rest.length : Int) < cl → readBody cl rest = .err)) := by
  constructor
  · intro m req h hcl
    unfold parseHTTPRequest at h
    split at h
    · exact absurd h (by simp)
    · simp only [] at h
      split at h
      · exact absurd h (by simp)
      · split at h
        · exact absurd h (by simp)
        · exact absurd h (by simp)
        · rename_i req1 rest1 hh
          split at h
          · exact absurd h (by simp)
          · exact absurd h (by simp)
          · rename_i body hb
            cases h
            simp only [] at hcl ⊢
            unfold readBody at hb
            rw [if_pos (by omega : req1.ContentLength ≠ -1),
              if_neg (by omega : ¬req1.ContentLength < 0)] at hb
            by_cases hlen : (rest1.length : Int) < req1.ContentLength
            · rw [if_pos hlen] at hb
              exact absurd hb (by simp)
            · rw [if_neg hlen] at hb
              rcases hb with ⟨rfl⟩
              refine ⟨_, rfl, ?_⟩
              show ((rest1.take req1.ContentLength.toNat).length : Int) =
                req1.ContentLength
              rw [List.length_take]
              omega
  · intro cl rest hcl
    unfold readBody
    rw [if_pos (by omega : cl ≠ -1), if_neg (by omega : ¬cl < 0)]
    constructor
    · intro hle
      rw [if_neg (by omega : ¬(rest.length : Int) < cl)]
    · intro hlt
      rw [if_pos hlt]

/-- Witness for C1: the request `GET / HTTP/1.1` + `Content-Length: 2`
+ body `ok` parses to a 2-byte body, and the framing stage rejects a
1-byte stream when 2 bytes were declared. -/
theorem C1_content_length_body_framing_witness :
    (∃ b : String,
        ({ Line := "GET / HTTP/1.1", Body := some "ok", Method := "GET",
           Target := "/", HTTPVersion := "HTTP/1.1", ContentLength := 2 } :
          httpRequest).Body = some b ∧ (b.length : Int) = 2) ∧
    readBody 2 "x".data = .err :=
  ⟨C1_content_length_body_framing.1
      "GET / HTTP/1.1\r\nContent-Length: 2\r\n\r\nok".data _ (by decide) (by decide),
    (C1_content_length_body_framing.2 2 "x".data (by decide)).2 (by decide)⟩

/-- A successful `readLine` consumes at least one byte. -/
theorem splitAtNewline_lt (input pre post : List Char)
    (h : splitAtNewline input = some (pre, post)) : post.length < input.length := by
  induction input generalizing pre post with
  | nil => simp [splitAtNewline] at h
  | cons c cs ih =>
    unfold splitAtNewline at h
    by_cases hc : c = '\n'
    · rw [if_pos hc] at h
      cases h
      simp
    · rw [if_neg hc] at h
      cases hsp : splitAtNewline cs with
      | none => rw [hsp] at h; cases h
      | some pr =>
        rw [hsp] at h
        cases h
        have := ih pr.1 pr.2 (by rw [hsp])
        simp only [List.length_cons]
        omega

/-- The unread rest returned by `readLine` is strictly shorter than its
input. -/
theorem readLine_rest_lt (input : List Char) (line : String) (rest : List Char)
    (h : readLine input = some (line, rest)) : rest.length < input.length := by
  unfold readLine at h
  cases hsp : splitAtNewline input with
  | some pr =>
    rw [hsp] at h
    cases h
    exact splitAtNewline_lt input pr.1 pr.2 (by rw [hsp])
  | none =>
    rw [hsp] at h
    by_cases hi : input = []
    · rw [if_pos hi] at h
      cases h
    · rw [if_neg hi] at h
      cases h
      simpa using List.length_pos.mpr hi

/-- Fuel irrelevance for the header loop: any fuel exceeding the stream
length gives the same result, so the fuel in `parseHTTPRequest` is only
a structural-recursion device, not part of the semantics. -/
theorem parseHeadersFuel_congr (f₁ f₂ : Nat) (input : List Char) (req : httpRequest)
    (h₁ : input.length < f₁) (h₂ : input.length < f₂) :
    parseHeadersFuel f₁ input req = parseHeadersFuel f₂ input req := by
  induction f₁ generalizing f₂ input req with
  | zero => omega
  | succ f ih =>
    cases f₂ with
    | zero => omega
    | succ g =>
      unfold parseHeadersFuel
      cases hr : readLine input with
      | none => rfl
      | some pr =>
        obtain ⟨line, rest⟩ := pr
        have hlt := readLine_rest_lt input line rest hr
        simp only []
        by_cases hline : line = ""
        · simp only [if_pos hline]
        · rw [if_neg hline, if_neg hline]
          repeat' split
          all_goals first
          | rfl
          | exact ih _ _ _ (by omega) (by omega)

/-- C2 counterexample: the request below carries no Content-Length
header at all, yet parses with `ContentLength = 0` (the Go zero value),
not the `-1` sentinel, and its body is the zero-byte result of the
exact-length read path, not the best-effort line `"hello"`.  Moreover a
header value that parses as a negative integer (which certainly fails to
parse as a *non-negative* integer) is stored as parsed, not as `-1`. -/
theorem C2_counterexample :
    parseHTTPRequest "GET / HTTP/1.1\r\n\r\nhello".data =
      .ok { Line := "GET / HTTP/1.1", Body := some "", Method := "GET",
            Target := "/", HTTPVersion := "HTTP/1.1", ContentLength := 0 } ∧
    contentLengthValue "-5" = -5 := by
  decide

/-- C2 as amended: only a Content-Length header that is *present* with
an un-`Atoi`-able value yields the `-1` sentinel (a value parsing as any
integer, negative included, is stored as parsed); the best-effort
single-line body read happens exactly when `ContentLength = -1` (EOF
there leaves the body nil); an *absent* header leaves the zero default,
on which the exact-length path reads an empty (zero-byte) body. -/
theorem C2_sentinel_amended :
    (∀ v : String, goAtoi v = none → contentLengthValue v = -1) ∧
    (∀ (v : String) (n : Int), goAtoi v = some n → contentLengthValue v = n) ∧
    (∀ rest : List Char, readBody 0 rest = .ok (some "")) ∧
    (readBody (-1) [] = .ok none) ∧
    (∀ (rest : List Char) (line : String) (r : List Char),
        readLine rest = some (line, r) → readBody (-1) rest = .ok (some line)) := by
  refine ⟨?_, ?_, ?_, by decide, ?_⟩
  · intro v hv
    unfold contentLengthValue
    rw [hv]
  · intro v n hv
    unfold contentLengthValue
    rw [hv]
  · intro rest
    unfold readBody
    rw [if_pos (by decide : (0 : Int) ≠ -1), if_neg (by decide : ¬(0 : Int) < 0),
      if_neg (by omega : ¬(rest.length : Int) < 0)]
    rfl
  · intro rest line r h
    unfold readBody
    rw [if_neg (by decide : ¬((-1 : Int) ≠ -1))]
    simp only [h]

/-- Witness for C2's amended statement at concrete inputs. -/
theorem C2_sentinel_amended_witness :
    contentLengthValue "xx" = -1 ∧ contentLengthValue "7" = 7 ∧
    readBody 0 "abc".data = .ok (some "") ∧
    readBody (-1) "hi\r\nx".data = .ok (some "hi") :=
  ⟨C2_sentinel_amended.1 "xx" (by decide),
    C2_sentinel_amended.2.1 "7" 7 (by decide),
    C2_sentinel_amended.2.2.1 "abc".data,
    C2_sentinel_amended.2.2.2.2 "hi\r\nx".data "hi" "x".data (by decide)⟩

/-- Any response with a present body emits the `Content-Length` header
for that body's byte length. -/
theorem contentLength_mem_emitted (resp : httpResponse) (b : String)
    (hb : resp.Body = some b) :
    ("Content-Length", toString b.length) ∈ emittedHeaders resp := by
  simp [emittedHeaders, hb, httpResponse.GetContentLength]

/-- C3 counterexample: a response with an *absent* (nil) body,
serialized through the non-mutating path, emits `Content-Length: 0` in
its wire bytes, because `SafeEncode`'s deep copy replaces the nil body
with a non-nil empty buffer (`make([]byte, 0)`). -/
theorem C3_counterexample :
    ({ ResponseCode := 200 } : httpResponse).Body = none ∧
    [("Content-Length", "0")].Perm
      (emittedHeaders (postEncode false { ResponseCode := 200 }).1) ∧
    (({ ResponseCode := 200 } : httpResponse).ByteResponse false
        [("Content-Length", "0")]).bytes =
      "HTTP/1.1 200 OK\r\nContent-Length: 0\r\n\r\n" := by
  decide

/-- C3 as amended: on the mutating path the invariant holds as claimed —
a nil body emits none of the three body headers (the wire is just the
status line and the blank line), and a present body, zero-length
included, always emits its `Content-Length`.  On the non-mutating path
the deep copy turns an absent body into a present empty one, so an
absent body emits `Content-Length: 0` there. -/
theorem C3_body_headers_amended (resp : httpResponse) (hs : List (String × String))
    (h : hs.Perm (emittedHeaders (postEncode true resp).1)) :
    (resp.Body = none →
        emittedHeaders (postEncode true resp).1 = [] ∧
        (resp.ByteResponse true hs).bytes =
          getStatusLine resp.ResponseCode ++ "\r\n") ∧
    (∀ b, resp.Body = some b →
        ("Content-Length", toString b.length) ∈
          emittedHeaders (postEncode true resp).1) ∧
    (resp.Body = none →
        ("Content-Length", "0") ∈ emittedHeaders (postEncode false resp).1) := by
  refine ⟨?_, ?_, ?_⟩
  · intro hb
    have henc : postEncode true resp = (resp, none) := by
      show resp.Encode = (resp, none)
      unfold httpResponse.Encode
      rw [if_pos (Or.inl hb)]
    have hemit : emittedHeaders (postEncode true resp).1 = [] := by
      rw [henc]
      unfold emittedHeaders
      rw [hb]
    refine ⟨hemit, ?_⟩
    have hnil : hs = [] := (hemit ▸ h).eq_nil
    show getStatusLine (postEncode true resp).1.ResponseCode ++ renderHeaders hs
        ++ "\r\n" ++ ((postEncode true resp).1.Body.getD "") =
      getStatusLine resp.ResponseCode ++ "\r\n"
    rw [henc, hnil, hb]
    show getStatusLine resp.ResponseCode ++ "" ++ "\r\n" ++ "" = _
    rw [String.append_empty, String.append_empty]
  · intro b hb
    have hbody : (postEncode true resp).1.Body = some b := by
      show resp.Encode.1.Body = some b
      rw [(Encode_fields resp).2.1, hb]
    exact contentLength_mem_emitted _ b hbody
  · intro hb
    have hcopy : resp.deepCopy.Body = some "" := by
      unfold httpResponse.deepCopy
      rw [hb]
      rfl
    have hbody : (postEncode false resp).1.Body = some "" := by
      show resp.deepCopy.Encode.1.Body = some ""
      rw [(Encode_fields resp.deepCopy).2.1, hcopy]
    have := contentLength_mem_emitted _ "" hbody
    have h0 : toString ("" : String).length = "0" := by decide
    rw [h0] at this
    exact this

/-- Witness for C3's amended statement: a nil-body response on the
mutating path, a present 2-byte body, and the non-mutating nil-body
case. -/
theorem C3_body_headers_amended_witness :
    (emittedHeaders (postEncode true { ResponseCode := 404 }).1 = [] ∧
      (({ ResponseCode := 404 } : httpResponse).ByteResponse true []).bytes =
        getStatusLine 404 ++ "\r\n") ∧
    ("Content-Length", toString ("hi" : String).length) ∈
      emittedHeaders (postEncode true { ResponseCode := 200, Body := some "hi" }).1 ∧
    ("Content-Length", "0") ∈
      emittedHeaders (postEncode false { ResponseCode := 404 }).1 :=
  ⟨(C3_body_headers_amended { ResponseCode := 404 } [] (by decide)).1 rfl,
    (C3_body_headers_amended { ResponseCode := 200, Body := some "hi" }
        [("Content-Length", "2")] (by decide)).2.1 "hi" rfl,
    (C3_body_headers_amended { ResponseCode := 404 } [] (by decide)).2.2 rfl⟩

/-- C4: for a response with a present body and a non-empty requested
encoding label, on either encode path: the supported label `"gzip"` sets
`Encoded = true` and leaves the body bytes untransformed with no error;
any other label clears the encoding method field, leaves
`Encoded = false`, returns the distinct non-fatal
`UnsupportedEncodingError` (serialization still proceeds and returns the
bytes alongside it), emits no `Content-Encoding` header in any
serialization order, and leaves the body bytes identical to the
unencoded input. -/
theorem C4_encoding_negotiation (resp : httpResponse) (b : String) (mutate : Bool)
    (hb : resp.Body = some b) (hm : resp.EncodingMethod ≠ "") :
    (resp.EncodingMethod = "gzip" →
        (postEncode mutate resp).1.Encoded = true ∧
        (postEncode mutate resp).1.Body = some b ∧
        (postEncode mutate resp).2 = none) ∧
    (resp.EncodingMethod ≠ "gzip" →
        (postEncode mutate resp).1.EncodingMethod = "" ∧
        (postEncode mutate resp).1.Encoded = false ∧
        (postEncode mutate resp).2 = some (.unsupported resp.EncodingMethod) ∧
        (postEncode mutate resp).1.Body = some b ∧
        ∀ hs : List (String × String),
          hs.Perm (emittedHeaders (postEncode mutate resp).1) →
          "Content-Encoding" ∉ hs.map Prod.fst) := by
  have key : postEncode mutate resp = resp.Encode := by
    cases mutate with
    | false =>
      show resp.SafeEncode = resp.Encode
      unfold httpResponse.SafeEncode
      rw [deepCopy_of_some resp b hb]
    | true => rfl
  have hcond : ¬(resp.Body = none ∨ resp.EncodingMethod = "") := by
    rw [hb]
    simp [hm]
  constructor
  · intro hgz
    rw [key]
    unfold httpResponse.Encode
    rw [if_neg hcond, if_pos hgz]
    have hbody : ({ resp with Encoded := true } : httpResponse).Body = some b := by
      rw [show ({ resp with Encoded := true } : httpResponse).Body = resp.Body from rfl, hb]
    exact ⟨rfl, hbody, rfl⟩
  · intro hgz
    rw [key]
    unfold httpResponse.Encode
    rw [if_neg hcond, if_neg hgz]
    have hbody :
        ({ resp with EncodingMethod := "", Encoded := false } : httpResponse).Body = some b := by
      rw [show ({ resp with EncodingMethod := "", Encoded := false } : httpResponse).Body =
        resp.Body from rfl, hb]
    refine ⟨rfl, rfl, rfl, hbody, ?_⟩
    intro hs hperm hmem
    exact contentEncoding_not_mem _ rfl ((hperm.map Prod.fst).mem_iff.mp hmem)

/-- The responses the C4 witness is evaluated at. -/
def respGzip : httpResponse := { ResponseCode := 200, EncodingMethod := "gzip", Body := some "hi" }

/-- An unsupported-label variant of `respGzip`. -/
def respBr : httpResponse := { ResponseCode := 200, EncodingMethod := "br", Body := some "hi" }

/-- Witness for C4 at concrete responses: the supported label and an
unsupported label `"br"`, serialized with the one valid header order. -/
theorem C4_encoding_negotiation_witness :
    (postEncode true respGzip).1.Encoded = true ∧
    (postEncode true respBr).2 = some (.unsupported "br") ∧
    "Content-Encoding" ∉ [("Content-Length", "2")].map Prod.fst :=
  ⟨((C4_encoding_negotiation respGzip "hi" true rfl (by decide)).1 rfl).1,
    ((C4_encoding_negotiation respBr "hi" true rfl (by decide)).2 (by decide)).2.2.1,
    ((C4_encoding_negotiation respBr "hi" true rfl (by decide)).2 (by decide)).2.2.2.2
      [("Content-Length", "2")] (by decide)⟩

/-- `splitNList` on a `/files/`-prefixed byte list: the scan consumes
the two leading `/` boundaries and leaves everything after the second
one, whatever it is, as the third piece. -/
theorem splitNList_files (ds : List Char) :
    splitNList ['/'] 3 ('/' :: 'f' :: 'i' :: 'l' :: 'e' :: 's' :: '/' :: ds) =
      [[], ['f', 'i', 'l', 'e', 's'], ds] := by
  simp [splitNList, splitFirst, List.isPrefixOf]

/-- `strings.SplitN(target, "/", 3)` on a `/files/`-prefixed target
always yields exactly the three pieces `["", "files", name]`, whatever
`name` is (later `/` boundaries stay inside `name`). -/
theorem goSplitN_files (name : String) :
    goSplitN "/" 3 ("/files/" ++ name) = ["", "files", name] := by
  unfold goSplitN
  have hslash : "/".data = ['/'] := by decide
  have hfiles : "/files/".data = ['/', 'f', 'i', 'l', 'e', 's', '/'] := by decide
  have hd : ("/files/" ++ name).data =
      '/' :: 'f' :: 'i' :: 'l' :: 'e' :: 's' :: '/' :: name.data := by
    rw [String.data_append, hfiles]
    rfl
  rw [hslash, hd, splitNList_files]
  have h1 : (⟨[]⟩ : String) = "" := by decide
  have h2 : (⟨['f', 'i', 'l', 'e', 's']⟩ : String) = "files" := by decide
  simp [h1, h2]

/-- A response with a nil body serialized on the mutating path is the
bare status line followed by the blank line: no headers, no body. -/
theorem bytes_of_nil_body (resp : httpResponse) (hb : resp.Body = none) :
    (resp.ByteResponse true []).bytes = getStatusLine resp.ResponseCode ++ "\r\n" := by
  have henc : resp.Encode = (resp, none) := by
    unfold httpResponse.Encode
    rw [if_pos (Or.inl hb)]
  show getStatusLine resp.Encode.1.ResponseCode ++ renderHeaders [] ++ "\r\n"
      ++ (resp.Encode.1.Body.getD "") = _
  rw [henc, hb]
  show getStatusLine resp.ResponseCode ++ "" ++ "\r\n" ++ "" = _
  rw [String.append_empty, String.append_empty]

/-- C6: on a GET request for `/files/<name>`, the built response is 404
with an absent body when the stat reports the file missing (and its wire
bytes are exactly the status line plus the blank line — an empty body),
500 on any other stat error, 200 with the full file contents and content
type `application/octet-stream` when the file is present and readable,
and 500 when the read itself fails. -/
theorem C6_get_files (fs : FileSystem) (dir name : String) (req : httpRequest)
    (htgt : req.Target = "/files/" ++ name) :
    (fs.stat (dir ++ name) = .notExist →
        handleGETResponse fs dir req =
          .ok { EncodingMethod := req.AcceptEncoding, ResponseCode := 404 } ∧
        (({ EncodingMethod := req.AcceptEncoding, ResponseCode := 404 } :
            httpResponse).ByteResponse true []).bytes =
          "HTTP/1.1 404 Not Found\r\n\r\n") ∧
    (fs.stat (dir ++ name) = .otherErr →
        handleGETResponse fs dir req =
          .ok { EncodingMethod := req.AcceptEncoding, ResponseCode := 500 }) ∧
    (∀ content, fs.stat (dir ++ name) = .found → fs.read (dir ++ name) = .ok content →
        handleGETResponse fs dir req =
          .ok { EncodingMethod := req.AcceptEncoding, ResponseCode := 200,
                Body := some content, ContentType := "application/octet-stream" }) ∧
    (fs.stat (dir ++ name) = .found → fs.read (dir ++ name) = .err →
        handleGETResponse fs dir req =
          .ok { EncodingMethod := req.AcceptEncoding, ResponseCode := 500,
                Body := some "There was an error reading the requested file\n" }) := by
  have hne : req.Target ≠ "/" := by
    rw [htgt]
    intro hcontra
    have hdata := congrArg String.data hcontra
    rw [String.data_append] at hdata
    have hfiles : "/files/".data = ['/', 'f', 'i', 'l', 'e', 's', '/'] := by decide
    rw [hfiles] at hdata
    simp at hdata
  have hwire : (({ EncodingMethod := req.AcceptEncoding, ResponseCode := 404 } :
      httpResponse).ByteResponse true []).bytes = "HTTP/1.1 404 Not Found\r\n\r\n" :=
    (bytes_of_nil_body _ rfl).trans
      (by decide : getStatusLine 404 ++ "\r\n" = "HTTP/1.1 404 Not Found\r\n\r\n")
  unfold handleGETResponse
  rw [if_neg hne, htgt, goSplitN_files]
  simp only []
  rw [show (["", "files", name] : List String).getD 1 "" = "files" from rfl,
    show (["", "files", name] : List String).getD 2 "" = name from rfl,
    show (["", "files", name] : List String).length = 3 from rfl,
    if_neg (show ¬(3 < 2) from by norm_num),
    if_neg (show ("files" : String) ≠ "echo" from by decide),
    if_neg (show ("files" : String) ≠ "user-agent" from by decide),
    if_pos (show ("files" : String) = "files" from rfl),
    if_neg (show ¬(3 < 3) from by norm_num)]
  refine ⟨?_, ?_, ?_, ?_⟩
  · intro hstat
    rw [hstat]
    exact ⟨rfl, hwire⟩
  · intro hstat
    rw [hstat]
  · intro content hstat hread
    rw [hstat, hread]
  · intro hstat hread
    rw [hstat, hread]

/-- The concrete one-file store the C6 witness runs against:
`hello.txt` is present with contents `hello`, everything else is
absent. -/
def fsOneFile : FileSystem :=
  { stat := fun p => if p = "/srv/hello.txt" then .found else .notExist
  , read := fun p => if p = "/srv/hello.txt" then .ok "hello" else .err }

/-- Witness for C6: a missing file yields the empty-body 404 and a
present file yields 200 with the file contents. -/
theorem C6_get_files_witness :
    (handleGETResponse fsOneFile "/srv/" { Method := "GET", Target := "/files/missing.txt" } =
        .ok { EncodingMethod := "", ResponseCode := 404 } ∧
      (({ EncodingMethod := "", ResponseCode := 404 } :
          httpResponse).ByteResponse true []).bytes = "HTTP/1.1 404 Not Found\r\n\r\n") ∧
    handleGETResponse fsOneFile "/srv/" { Method := "GET", Target := "/files/hello.txt" } =
      .ok { EncodingMethod := "", ResponseCode := 200, Body := some "hello",
            ContentType := "application/octet-stream" } :=
  ⟨(C6_get_files fsOneFile "/srv/" "missing.txt"
      { Method := "GET", Target := "/files/missing.txt" } rfl).1 (by decide),
    (C6_get_files fsOneFile "/srv/" "hello.txt"
      { Method := "GET", Target := "/files/hello.txt" } rfl).2.2.1 "hello"
      (by decide) (by decide)⟩

/-- A response emitting two headers, used to exhibit the header-order
nondeterminism of the serializer. -/
def respText : httpResponse :=
  { ResponseCode := 200, ContentType := "text/plain", Body := some "hi" }

/-- C7 counterexample: Go map iteration order is randomized per `range`,
so two serializations of the same response within one run may emit the
`Content-Type` and `Content-Length` lines in either order; the two
orders below are both permutations of the emitted header set and yield
different wire bytes. -/
theorem C7_counterexample :
    [("Content-Type", "text/plain"), ("Content-Length", "2")].Perm
      (emittedHeaders (postEncode true respText).1) ∧
    [("Content-Length", "2"), ("Content-Type", "text/plain")].Perm
      (emittedHeaders (postEncode true respText).1) ∧
    (respText.ByteResponse true
        [("Content-Type", "text/plain"), ("Content-Length", "2")]).bytes ≠
      (respText.ByteResponse true
        [("Content-Length", "2"), ("Content-Type", "text/plain")]).bytes := by
  decide

/-- C7 as amended: serializing the same response twice in one run is
deterministic only up to the order of the header lines — any two valid
serializations have the same status line, the same body, and the same
multiset of rendered header lines, each being exactly the status line,
its header lines joined in its iteration order, the blank line and the
body. -/
theorem C7_deterministic_up_to_header_order (mutate : Bool) (resp : httpResponse)
    (hs₁ hs₂ : List (String × String))
    (h₁ : hs₁.Perm (emittedHeaders (postEncode mutate resp).1))
    (h₂ : hs₂.Perm (emittedHeaders (postEncode mutate resp).1)) :
    (hs₁.map headerLine).Perm (hs₂.map headerLine) ∧
    (resp.ByteResponse mutate hs₁).bytes =
      getStatusLine (postEncode mutate resp).1.ResponseCode ++
        String.join (hs₁.map headerLine) ++ "\r\n" ++
        ((postEncode mutate resp).1.Body.getD "") ∧
    (resp.ByteResponse mutate hs₂).bytes =
      getStatusLine (postEncode mutate resp).1.ResponseCode ++
        String.join (hs₂.map headerLine) ++ "\r\n" ++
        ((postEncode mutate resp).1.Body.getD "") := by
  refine ⟨(h₁.trans h₂.symm).map headerLine, ?_, ?_⟩
  · have e : (resp.ByteResponse mutate hs₁).bytes =
        getStatusLine (postEncode mutate resp).1.ResponseCode ++ renderHeaders hs₁ ++
          "\r\n" ++ ((postEncode mutate resp).1.Body.getD "") := rfl
    rw [e, renderHeaders_eq_join]
  · have e : (resp.ByteResponse mutate hs₂).bytes =
        getStatusLine (postEncode mutate resp).1.ResponseCode ++ renderHeaders hs₂ ++
          "\r\n" ++ ((postEncode mutate resp).1.Body.getD "") := rfl
    rw [e, renderHeaders_eq_join]

/-- Witness for C7's amended statement at the two concrete orders of
`respText`'s header set. -/
theorem C7_deterministic_up_to_header_order_witness :
    (([("Content-Type", "text/plain"), ("Content-Length", "2")].map headerLine).Perm
      ([("Content-Length", "2"), ("Content-Type", "text/plain")].map headerLine)) ∧
    (respText.ByteResponse true
        [("Content-Type", "text/plain"), ("Content-Length", "2")]).bytes =
      getStatusLine (postEncode true respText).1.ResponseCode ++
        String.join ([("Content-Type", "text/plain"),
          ("Content-Length", "2")].map headerLine) ++ "\r\n" ++
        ((postEncode true respText).1.Body.getD "") :=
  ⟨(C7_deterministic_up_to_header_order true respText
      [("Content-Type", "text/plain"), ("Content-Length", "2")]
      [("Content-Length", "2"), ("Content-Type", "text/plain")]
      (by decide) (by decide)).1,
    (C7_deterministic_up_to_header_order true respText
      [("Content-Type", "text/plain"), ("Content-Length", "2")]
      [("Content-Length", "2"), ("Content-Type", "text/plain")]
      (by decide) (by decide)).2.1⟩

/-- C8: the non-mutating serialization path leaves the caller's response
object exactly as it was — `SafeEncode` works on a deep copy (a fresh
body buffer holding the old contents, so the working object is
`Encode` applied to that copy) and only the local variable is rebound —
and therefore serializing the untouched original again yields the same
bytes. -/
theorem C8_nonmutating_preserves_original (resp : httpResponse)
    (hs : List (String × String))
    (h : hs.Perm (emittedHeaders (postEncode false resp).1)) :
    (resp.ByteResponse false hs).origAfter = resp ∧
    postEncode false resp = resp.deepCopy.Encode ∧
    resp.deepCopy.Body = some (resp.Body.getD "") ∧
    ((resp.ByteResponse false hs).origAfter.ByteResponse false hs).bytes =
      (resp.ByteResponse false hs).bytes :=
  ⟨rfl, rfl, rfl, rfl⟩

/-- Witness for C8 at a concrete 2-byte-body response and its one
emitted header. -/
theorem C8_nonmutating_preserves_original_witness :
    (({ ResponseCode := 200, Body := some "hi" } : httpResponse).ByteResponse false
        [("Content-Length", "2")]).origAfter =
      { ResponseCode := 200, Body := some "hi" } ∧
    ((({ ResponseCode := 200, Body := some "hi" } : httpResponse).ByteResponse false
          [("Content-Length", "2")]).origAfter.ByteResponse false
        [("Content-Length", "2")]).bytes =
      (({ ResponseCode := 200, Body := some "hi" } : httpResponse).ByteResponse false
          [("Content-Length", "2")]).bytes :=
  ⟨(C8_nonmutating_preserves_original { ResponseCode := 200, Body := some "hi" }
      [("Content-Length", "2")] (by decide)).1,
    (C8_nonmutating_preserves_original { ResponseCode := 200, Body := some "hi" }
      [("Content-Length", "2")] (by decide)).2.2.2⟩

/-- C10 counterexample: for a response with an *absent* body the two
paths differ even as header sets — the mutating path emits no headers at
all while the non-mutating path emits `Content-Length: 0` — so the wire
bytes differ beyond any reordering. -/
theorem C10_counterexample :
    [].Perm (emittedHeaders (postEncode true { ResponseCode := 200 }).1) ∧
    [("Content-Length", "0")].Perm
      (emittedHeaders (postEncode false { ResponseCode := 200 }).1) ∧
    (({ ResponseCode := 200 } : httpResponse).ByteResponse true []).bytes ≠
      (({ ResponseCode := 200 } : httpResponse).ByteResponse false
        [("Content-Length", "0")]).bytes := by
  decide

/-- C10 as amended: for every response whose body is *present*, the
mutating and non-mutating serialization paths agree on the wire bytes
order-for-order (the deep copy is then the identity); only the
absent-body case separates them. -/
theorem C10_paths_agree_on_present_body (resp : httpResponse) (b : String)
    (hs : List (String × String)) (hb : resp.Body = some b)
    (h : hs.Perm (emittedHeaders (postEncode true resp).1)) :
    (resp.ByteResponse true hs).bytes = (resp.ByteResponse false hs).bytes := by
  have key : postEncode false resp = postEncode true resp := by
    show resp.SafeEncode = resp.Encode
    unfold httpResponse.SafeEncode
    rw [deepCopy_of_some resp b hb]
  have e₁ : (resp.ByteResponse true hs).bytes =
      getStatusLine (postEncode true resp).1.ResponseCode ++ renderHeaders hs ++
        "\r\n" ++ ((postEncode true resp).1.Body.getD "") := rfl
  have e₂ : (resp.ByteResponse false hs).bytes =
      getStatusLine (postEncode false resp).1.ResponseCode ++ renderHeaders hs ++
        "\r\n" ++ ((postEncode false resp).1.Body.getD "") := rfl
  rw [e₁, e₂, key]

/-- Witness for C10's amended statement at a concrete present-body
response. -/
theorem C10_paths_agree_on_present_body_witness :
    (({ ResponseCode := 200, Body := some "hi" } : httpResponse).ByteResponse true
        [("Content-Length", "2")]).bytes =
      (({ ResponseCode := 200, Body := some "hi" } : httpResponse).ByteResponse false
        [("Content-Length", "2")]).bytes :=
  C10_paths_agree_on_present_body { ResponseCode := 200, Body := some "hi" } "hi"
    [("Content-Length", "2")] rfl (by decide)
